import Mathlib

/-!
Verification of the async-task invocation controller in `src/index.ts`
(`useAsyncTask`).

The controller is single-threaded (JS event loop): `run`, `cancel`, the
callback-ref refresh effect, and each promise-settlement handler execute
atomically.  We therefore embed the controller as a state machine whose
state mirrors the hook's mutable cells (`invocationRef.current`, `status`,
`callbacksRef.current`, the `leaveRunning` flag), and whose steps are the
atomic blocks of the source.  Each step returns the new state together
with the list of externally observable effects it performs, in source
order: invocations of the user-supplied task function, `setStatus`
commits, user-callback invocations (labelled, so that which configured
closure fired is observable), and `console.error` diagnostic logs.

Type parameters: `T` is the task's result type, `L` labels callback
closures (distinct labels model distinct configured functions).
-/

/-- A JS `Error` as observed by the controller: `console.error` prints its
name and message (the stack is nondeterministic and carries no information
the claims mention, so it is omitted). -/
structure Err where
  name : String
  message : String
deriving Repr, DecidableEq

/-- The error synthesized at line 134 of `src/index.ts` when the task
function returns a falsy, non-promise value. -/
def falsyError : Err :=
  { name := "Error", message := "Task function did not return a Promise!" }

/-- The observable status triple held in the `useState` cell
(lines 82-86): `isRunning`, `result`, `error`. -/
structure Status (T : Type) where
  isRunning : Bool
  result : Option T
  error : Option Err
deriving Repr, DecidableEq

/-- The status `{ isRunning: false, result: null, error: null }`. -/
def idleStatus (T : Type) : Status T :=
  { isRunning := false, result := none, error := none }

/-- The four lifecycle callbacks held in `callbacksRef.current`
(line 96).  `none` models an absent (`undefined`/`null`) callback; a
present callback is identified by its label. -/
structure CallbackSet (L : Type) where
  onStart : Option L
  onComplete : Option L
  onError : Option L
  onFinally : Option L
deriving Repr, DecidableEq

/-- The controller state: the `leaveRunning` configuration flag (already
coerced by `!!` as at line 154), the generation counter
`invocationRef.current` (line 92), the `useState` status cell, and the
always-current callback set `callbacksRef.current`. -/
structure Ctrl (T L : Type) where
  leaveRunning : Bool
  invocation : Nat
  status : Status T
  callbacks : CallbackSet L
deriving Repr, DecidableEq

/-- Externally observable effects, in the order the source performs
them. -/
inductive Event (T L : Type) where
  /-- `func.apply(thisArg, args)` at line 128 begins executing the
  user-supplied task function; the argument is the invocation id it was
  handed in `thisArg`. -/
  | invokeFunc (invocation : Nat)
  /-- A `setStatus` commit (lines 142, 154, 172, 186). -/
  | commit (s : Status T)
  /-- `callbacksRef.current.onStart?.()` with the labelled closure. -/
  | callStart (l : L)
  /-- `callbacksRef.current.onComplete?.(result)`. -/
  | callComplete (l : L) (v : T)
  /-- `callbacksRef.current.onError?.(error)`. -/
  | callError (l : L) (e : Err)
  /-- `callbacksRef.current.onFinally?.()`. -/
  | callFinally (l : L)
  /-- The `console.error("Async task error:", ...)` diagnostic log at
  lines 162-167. -/
  | log (e : Err)
deriving Repr, DecidableEq

/-- What the synchronous part of one `func.apply` call does, as the
environment (the user-supplied task function) chooses it: return a
promise that settles later, throw synchronously, or return a falsy
non-promise value. -/
inductive FuncResult where
  | pending
  | throws (e : Err)
  | falsy
deriving Repr, DecidableEq

/-- The `promise` local of `run` after the try/catch at lines 126-140:
either the live promise the task function returned, or the
already-rejected `new Promise((_, reject) => reject(error))` built at
line 139. -/
inductive Promise where
  | live
  | rejected (e : Err)
deriving Repr, DecidableEq

/-- How one promise settles: fulfillment with a value or rejection with
an error. -/
inductive Settlement (T : Type) where
  | success (v : T)
  | failure (e : Err)
deriving Repr, DecidableEq

/-- JS `!!x` applied to an optional boolean parameter (`!!runOnMount` at
line 83, `!!leaveRunning` at line 154): `undefined` coerces to
`false`. -/
def coerceBool : Option Bool → Bool
  | some b => b
  | none => false

/-- The result of the synchronous body of `run` (lines 113-148): the
updated controller state, the effects performed, and the `promise` local
whose settlement will be processed later. -/
structure RunResult (T L : Type) where
  ctrl : Ctrl T L
  events : List (Event T L)
  promise : Promise
deriving Repr, DecidableEq

/-- The synchronous body of `run(...args)` (lines 113-148), faithful to
source order: increment `invocationRef.current` and snapshot it as the
token (lines 115-116); invoke the task function inside the try/catch
(line 128), turning a synchronous throw (line 138) or a falsy return
value (lines 133-135) into an already-rejected promise (line 139); then
`setStatus({ isRunning: true, result: null, error: null })` (line 142);
then `callbacksRef.current.onStart?.()` (line 144).  The `.then`/`.catch`
handlers attached at lines 148-177 run only when the promise settles and
are modelled by `settleStep`. -/
def runStep (c : Ctrl T L) (fr : FuncResult) : RunResult T L :=
  let invocation := c.invocation + 1
  let promise : Promise :=
    match fr with
    | .pending => .live
    | .throws e => .rejected e
    | .falsy => .rejected falsyError
  { ctrl := { c with
      invocation := invocation
      status := { isRunning := true, result := none, error := none } }
    events :=
      [.invokeFunc invocation,
       .commit { isRunning := true, result := none, error := none }]
        ++ (match c.callbacks.onStart with
            | some l => [.callStart l]
            | none => [])
    promise := promise }

/-- The `.then`/`.catch` settlement handlers of `run` (lines 148-177),
executed atomically on the event loop when the promise of the invocation
with token `id` settles.  Success: if `invocationRef.current > invocation`
return (line 152); else commit `{ isRunning: !!leaveRunning, result,
error: null }` (line 154), call `onComplete` then `onFinally`
(lines 157-158).  Failure: `console.error` first, unconditionally
(lines 162-167); if `invocationRef.current > invocation` return
(line 170); else commit `{ isRunning: false, result: null, error }`
(line 172), call `onError` then `onFinally` (lines 175-176). -/
def settleStep (c : Ctrl T L) (id : Nat) (s : Settlement T) :
    Ctrl T L × List (Event T L) :=
  match s with
  | .success v =>
    if c.invocation > id then (c, [])
    else
      ({ c with status :=
          { isRunning := c.leaveRunning, result := some v, error := none } },
       [.commit { isRunning := c.leaveRunning, result := some v, error := none }]
         ++ (match c.callbacks.onComplete with
             | some l => [.callComplete l v]
             | none => [])
         ++ (match c.callbacks.onFinally with
             | some l => [.callFinally l]
             | none => []))
  | .failure e =>
    if c.invocation > id then (c, [.log e])
    else
      ({ c with status :=
          { isRunning := false, result := none, error := some e } },
       [.log e,
        .commit { isRunning := false, result := none, error := some e }]
         ++ (match c.callbacks.onError with
             | some l => [.callError l e]
             | none => [])
         ++ (match c.callbacks.onFinally with
             | some l => [.callFinally l]
             | none => []))

/-- `cancel()` (lines 180-191): increment `invocationRef.current`, then
`setStatus({ isRunning: false, result: null, error: null })`.  No user
callback is invoked. -/
def cancelStep (c : Ctrl T L) : Ctrl T L × List (Event T L) :=
  ({ c with invocation := c.invocation + 1, status := idleStatus T },
   [.commit (idleStatus T)])

/-- The refresh effect at lines 98-103: `callbacksRef.current` is
overwritten with the latest configured callbacks on every render. -/
def updateCallbacks (c : Ctrl T L) (cs : CallbackSet L) : Ctrl T L :=
  { c with callbacks := cs }

/-- The `isCanceled` predicate handed to the task function (line 120) and
the supersession check of the settlement handlers (lines 152, 170):
`invocationRef.current > invocation`. -/
def isCanceled (c : Ctrl T L) (id : Nat) : Bool :=
  decide (c.invocation > id)

/-- Controller state at construction (lines 82-96): status
`{ isRunning: !!runOnMount, result: null, error: null }`, counter `0`,
and the configured callbacks; the run-on-mount effect (lines 109-111) and
the cancel-on-unmount effect (line 106) are separate later steps. -/
def initCtrl (runOnMount leaveRunning : Option Bool) (cs : CallbackSet L) :
    Ctrl T L :=
  { leaveRunning := coerceBool leaveRunning
    invocation := 0
    status := { isRunning := coerceBool runOnMount, result := none, error := none }
    callbacks := cs }

/-- Settling the promise returned by `runStep`: an already-rejected
promise (from a synchronous throw or a falsy return) can only deliver its
recorded rejection; a live promise settles however the environment
chooses. -/
def forcedSettlement (p : Promise) (s : Settlement T) : Settlement T :=
  match p with
  | .rejected e => .failure e
  | .live => s

/-- One `run` followed immediately by the settlement of the invocation it
created, with no interleaved operation; the combined event list. -/
def runThenSettle (c : Ctrl T L) (fr : FuncResult) (s : Settlement T) :
    Ctrl T L × List (Event T L) :=
  let r := runStep c fr
  let out := settleStep r.ctrl r.ctrl.invocation (forcedSettlement r.promise s)
  (out.1, r.events ++ out.2)

/-- An atomic operation on the controller as scheduled by the event loop:
a `run` call (with the task function behaving as `fr`), a `cancel` call,
the settlement handler of the invocation with token `id`, or a
callback-set refresh. -/
inductive Op (T L : Type) where
  | runOp (fr : FuncResult)
  | cancelOp
  | settleOp (id : Nat) (s : Settlement T)
  | updateOp (cs : CallbackSet L)

/-- The state transition of one atomic operation. -/
def step (c : Ctrl T L) : Op T L → Ctrl T L
  | .runOp fr => (runStep c fr).ctrl
  | .cancelOp => (cancelStep c).1
  | .settleOp id s => (settleStep c id s).1
  | .updateOp cs => updateCallbacks c cs

/-- Executing a sequence of atomic operations. -/
def exec (c : Ctrl T L) : List (Op T L) → Ctrl T L
  | [] => c
  | op :: ops => exec (step c op) ops

/-- The generation tokens handed out by the `run` calls of an operation
sequence, in order (each `run` snapshots the just-incremented counter,
lines 115-116). -/
def runTokens (c : Ctrl T L) : List (Op T L) → List Nat
  | [] => []
  | op :: ops =>
    (match op with
     | .runOp _ => [c.invocation + 1]
     | _ => []) ++ runTokens (step c op) ops

/-- Events that are user-callback invocations (as opposed to status
commits, diagnostic logs, or entering the task function). -/
def isUserCallback : Event T L → Bool
  | .callStart _ => true
  | .callComplete _ _ => true
  | .callError _ _ => true
  | .callFinally _ => true
  | _ => false

/-- Events that are `setStatus` commits. -/
def isCommit : Event T L → Bool
  | .commit _ => true
  | _ => false

/-! ## Concrete fixtures shared by witnesses and counterexamples -/

/-- A fully populated callback set with distinct labels. -/
def cs0 : CallbackSet Nat :=
  { onStart := some 0, onComplete := some 1, onError := some 2, onFinally := some 3 }

/-- A second callback set, disjoint from `cs0`, modelling redefined
callbacks. -/
def cs1 : CallbackSet Nat :=
  { onStart := some 10, onComplete := some 11, onError := some 12, onFinally := some 13 }

/-- A freshly constructed controller with default options. -/
def c0 : Ctrl Nat Nat := initCtrl none none cs0

/-! ## Claims -/

/-- Claim C1, counterexample: on a fresh controller with an `onStart`
callback configured, `run` produces the event sequence
invoke-task-function, then status commit, then `onStart` — the task
function is entered first (line 128 precedes lines 142 and 144), so the
claimed order (commit, then `onStart`, then task function) is false. -/
theorem run_invokes_func_before_commit_cx :
    (runStep c0 FuncResult.pending).events
      = [Event.invokeFunc 1,
         Event.commit { isRunning := true, result := none, error := none },
         Event.callStart 0]
    ∧ (runStep c0 FuncResult.pending).events
      ≠ [Event.commit { isRunning := true, result := none, error := none },
         Event.callStart 0,
         Event.invokeFunc 1] := by
  exact ⟨by decide, by decide⟩

/-- Claim C1 as amended: every `run()` first obtains a new generation
token (`invocationRef.current + 1`), then invokes the user-supplied task
function inside the synchronous failure guard, then commits
`{ isRunning: true, result: absent, error: absent }` (clearing any prior
result/error), and only after that invokes `onStart` if present. -/
theorem run_event_order (c : Ctrl T L) (fr : FuncResult) :
    (runStep c fr).ctrl.invocation = c.invocation + 1
    ∧ (runStep c fr).events
      = [Event.invokeFunc (c.invocation + 1),
         Event.commit { isRunning := true, result := none, error := none }]
          ++ (match c.callbacks.onStart with
              | some l => [Event.callStart l]
              | none => []) := by
  exact ⟨rfl, rfl⟩

/-- Claim C10: at construction, before any `run()` executes (the counter
is still `0` and no effect has been performed), the status is
`{ isRunning: !!runOnMount, result: null, error: null }`; in particular
with `runOnMount` set, `isRunning` is already `true` at creation. -/
theorem init_status_spec (ro lr : Option Bool) (cs : CallbackSet L) :
    (initCtrl ro lr cs : Ctrl T L).status
        = { isRunning := coerceBool ro, result := none, error := none }
    ∧ (initCtrl ro lr cs : Ctrl T L).invocation = 0
    ∧ (initCtrl (some true) lr cs : Ctrl T L).status.isRunning = true := by
  exact ⟨rfl, rfl, rfl⟩

/-- Claim C4: `cancel()` in any state advances the generation counter,
resets the status to `{ isRunning: false, result: null, error: null }`,
performs no user-callback invocation, supersedes every outstanding token
(every token handed out so far is at most the current counter), is
idempotent on the observable status, and leaves the status unchanged when
it is already the idle status. -/
theorem cancel_resets_and_supersedes (c : Ctrl T L) :
    (cancelStep c).1.invocation = c.invocation + 1
    ∧ (cancelStep c).1.status = idleStatus T
    ∧ (cancelStep c).2 = [Event.commit (idleStatus T)]
    ∧ (∀ e ∈ (cancelStep c).2, isUserCallback e = false)
    ∧ (∀ id, id ≤ c.invocation → isCanceled (cancelStep c).1 id = true)
    ∧ (cancelStep (cancelStep c).1).1.status = (cancelStep c).1.status
    ∧ (c.status = idleStatus T → (cancelStep c).1.status = c.status) := by
  refine ⟨rfl, rfl, rfl, ?_, ?_, rfl, ?_⟩
  · intro e he
    simp [cancelStep] at he
    simp [he, isUserCallback]
  · intro id hid
    simp [cancelStep, isCanceled]
    omega
  · intro h
    simp [cancelStep, h]

/-- Witness for `cancel_resets_and_supersedes` at a fresh controller:
token `0` is superseded after cancel, and cancelling the idle controller
leaves its status unchanged. -/
theorem cancel_resets_and_supersedes_witness :
    isCanceled (cancelStep c0).1 0 = true
    ∧ (cancelStep c0).1.status = c0.status := by
  have h := cancel_resets_and_supersedes c0
  exact ⟨h.2.2.2.2.1 0 (by decide), h.2.2.2.2.2.2 (by decide)⟩

/-- Claim C7: a successful settlement whose token is not superseded
commits `{ isRunning: !!leaveRunning, result, error: absent }` — so
`isRunning` stays `true` after success exactly when `leaveRunning` is
set — and then invokes `onComplete(result)` (if present) before
`onFinally` (if present). -/
theorem success_settlement_commit (c : Ctrl T L) (id : Nat) (v : T)
    (h : ¬ c.invocation > id) :
    settleStep c id (Settlement.success v)
      = ({ c with status :=
            { isRunning := c.leaveRunning, result := some v, error := none } },
         [Event.commit { isRunning := c.leaveRunning, result := some v, error := none }]
           ++ (match c.callbacks.onComplete with
               | some l => [Event.callComplete l v]
               | none => [])
           ++ (match c.callbacks.onFinally with
               | some l => [Event.callFinally l]
               | none => []))
    ∧ (settleStep c id (Settlement.success v)).1.status.isRunning = c.leaveRunning := by
  constructor
  · simp [settleStep, h]
  · simp [settleStep, h]

/-- Witness for `success_settlement_commit`: after one `run` on a fresh
controller, settling token `1` with value `42` commits
`{ isRunning: false, result: 42, error: null }`. -/
theorem success_settlement_commit_witness :
    (settleStep (runStep c0 FuncResult.pending).ctrl 1 (Settlement.success 42)).1.status
      = { isRunning := false, result := some 42, error := none } := by
  have h := success_settlement_commit (runStep c0 FuncResult.pending).ctrl 1 42 (by decide)
  rw [h.1]
  rfl

/-- A concrete error fixture. -/
def e0 : Err := { name := "Error", message := "boom" }

/-- Claim C3: on a failed settlement the diagnostic log is always the
first event, unconditionally; when the token is superseded nothing else
happens (no status write, no callback); when it is not superseded the
status `{ isRunning: false, result: absent, error }` is committed and
then `onError(error)` (if configured) and then `onFinally` are called, in
that order. -/
theorem failure_settlement_path (c : Ctrl T L) (id : Nat) (e : Err) :
    ((settleStep c id (Settlement.failure e)).2).head? = some (Event.log e)
    ∧ (c.invocation > id →
        settleStep c id (Settlement.failure e) = (c, [Event.log e]))
    ∧ (¬ c.invocation > id →
        settleStep c id (Settlement.failure e)
          = ({ c with status :=
                { isRunning := false, result := none, error := some e } },
             [Event.log e,
              Event.commit { isRunning := false, result := none, error := some e }]
               ++ (match c.callbacks.onError with
                   | some l => [Event.callError l e]
                   | none => [])
               ++ (match c.callbacks.onFinally with
                   | some l => [Event.callFinally l]
                   | none => []))) := by
  refine ⟨?_, ?_, ?_⟩
  · by_cases h : c.invocation > id <;> simp [settleStep, h]
  · intro h
    simp [settleStep, h]
  · intro h
    simp [settleStep, h]

/-- Witness for `failure_settlement_path`: after one `run`, the stale
token `0` only logs, while the live token `1` commits the error
status. -/
theorem failure_settlement_path_witness :
    settleStep (runStep c0 FuncResult.pending).ctrl 0 (Settlement.failure e0)
      = ((runStep c0 FuncResult.pending).ctrl, [Event.log e0])
    ∧ (settleStep (runStep c0 FuncResult.pending).ctrl 1 (Settlement.failure e0)).1.status
      = { isRunning := false, result := none, error := some e0 } := by
  have h := failure_settlement_path (runStep c0 FuncResult.pending).ctrl 0 e0
  have h' := failure_settlement_path (runStep c0 FuncResult.pending).ctrl 1 e0
  refine ⟨h.2.1 (by decide), ?_⟩
  rw [h'.2.2 (by decide)]

/-- A settlement whose token is superseded changes nothing and emits at
most the diagnostic log (helper for several claims). -/
theorem settle_superseded (c : Ctrl T L) (id : Nat) (s : Settlement T)
    (h : id < c.invocation) :
    (settleStep c id s).1 = c
    ∧ (settleStep c id s).2
      = (match s with
         | .failure e => [Event.log e]
         | .success _ => []) := by
  cases s <;> simp [settleStep, h]

/-- Claim C2: a superseded invocation's settlement performs no status
write and invokes no user callback; a settlement after `cancel()`
likewise mutates nothing and fires nothing; and in the run-run-settle
scenario the first call's settlement is discarded entirely while the
second (most recent) call's settlement commits its result. -/
theorem superseded_settlement_suppressed (c : Ctrl T L) (id : Nat)
    (s s' : Settlement T) (fr : FuncResult) (v₁ v₂ : T) :
    (id < c.invocation →
      (settleStep c id s).1 = c
      ∧ ∀ e ∈ (settleStep c id s).2, isUserCallback e = false ∧ isCommit e = false)
    ∧ ((settleStep (cancelStep (runStep c fr).ctrl).1
          (runStep c fr).ctrl.invocation s').1
        = (cancelStep (runStep c fr).ctrl).1
      ∧ ∀ e ∈ (settleStep (cancelStep (runStep c fr).ctrl).1
          (runStep c fr).ctrl.invocation s').2,
          isUserCallback e = false ∧ isCommit e = false)
    ∧ settleStep (runStep (runStep c FuncResult.pending).ctrl FuncResult.pending).ctrl
        (runStep c FuncResult.pending).ctrl.invocation (Settlement.success v₁)
        = ((runStep (runStep c FuncResult.pending).ctrl FuncResult.pending).ctrl, [])
    ∧ (settleStep (runStep (runStep c FuncResult.pending).ctrl FuncResult.pending).ctrl
        (runStep (runStep c FuncResult.pending).ctrl FuncResult.pending).ctrl.invocation
        (Settlement.success v₂)).1.status
        = { isRunning := c.leaveRunning, result := some v₂, error := none } := by
  refine ⟨?_, ?_, ?_, ?_⟩
  · intro h
    have hs := settle_superseded c id s h
    refine ⟨hs.1, ?_⟩
    intro e he
    rw [hs.2] at he
    cases s with
    | success v =>
      simp at he
    | failure e' =>
      simp at he
      simp [he, isUserCallback, isCommit]
  · have h : (runStep c fr).ctrl.invocation
        < (cancelStep (runStep c fr).ctrl).1.invocation := Nat.lt_succ_self _
    have hs := settle_superseded (cancelStep (runStep c fr).ctrl).1
        (runStep c fr).ctrl.invocation s' h
    refine ⟨hs.1, ?_⟩
    intro e he
    rw [hs.2] at he
    cases s' with
    | success v =>
      simp at he
    | failure e' =>
      simp at he
      simp [he, isUserCallback, isCommit]
  · have h : (runStep c FuncResult.pending).ctrl.invocation
        < (runStep (runStep c FuncResult.pending).ctrl FuncResult.pending).ctrl.invocation :=
      Nat.lt_succ_self _
    have hs := settle_superseded
        (runStep (runStep c FuncResult.pending).ctrl FuncResult.pending).ctrl
        (runStep c FuncResult.pending).ctrl.invocation (Settlement.success v₁) h
    rw [Prod.ext_iff]
    exact ⟨hs.1, hs.2⟩
  · simp [settleStep, runStep]

/-- Witness for `superseded_settlement_suppressed`: token `0` settling on
a controller whose counter is `1` leaves the state untouched. -/
theorem superseded_settlement_suppressed_witness :
    (settleStep (runStep c0 FuncResult.pending).ctrl 0 (Settlement.failure e0)).1
      = (runStep c0 FuncResult.pending).ctrl := by
  have h := superseded_settlement_suppressed (runStep c0 FuncResult.pending).ctrl 0
      (Settlement.failure e0) (Settlement.failure e0) FuncResult.pending (5 : Nat) (7 : Nat)
  exact (h.1 (by decide)).1

/-- Claim C5: a task function that throws synchronously is normalized
into an already-rejected promise carrying the thrown error, and the whole
run-then-settle trace (state and events) is identical to that of a task
function whose promise rejects with the same error; `run` itself performs
the same synchronous effects in both cases and never propagates the
exception. -/
theorem sync_throw_refines_rejection (c : Ctrl T L) (e : Err) (s : Settlement T) :
    runThenSettle c (FuncResult.throws e) s
      = runThenSettle c FuncResult.pending (Settlement.failure e)
    ∧ (runStep c (FuncResult.throws e)).ctrl = (runStep c FuncResult.pending).ctrl
    ∧ (runStep c (FuncResult.throws e)).events = (runStep c FuncResult.pending).events
    ∧ (runStep c (FuncResult.throws e)).promise = Promise.rejected e := by
  exact ⟨rfl, rfl, rfl, rfl⟩

/-- Claim C6: a task-function invocation returning a falsy, non-promise
value is normalized into a rejection with the descriptive error
"Task function did not return a Promise!", following exactly the normal
failure path; regardless of how the environment would have settled a live
promise, the outcome is a failure status, never a silent success. -/
theorem falsy_return_fails (c : Ctrl T L) (s : Settlement T) :
    runThenSettle c FuncResult.falsy s
      = runThenSettle c FuncResult.pending (Settlement.failure falsyError)
    ∧ (runStep c FuncResult.falsy).promise = Promise.rejected falsyError
    ∧ falsyError.message = "Task function did not return a Promise!"
    ∧ (runThenSettle c FuncResult.falsy s).1.status.result = none
    ∧ (runThenSettle c FuncResult.falsy s).1.status.error = some falsyError := by
  refine ⟨rfl, rfl, rfl, ?_, ?_⟩
  · simp [runThenSettle, runStep, settleStep, forcedSettlement]
  · simp [runThenSettle, runStep, settleStep, forcedSettlement]

/-- Claim C8: the events a settlement performs are determined by the
latest configured callback set (together with the counter and
`leaveRunning`), not by the callbacks in effect when the settling
invocation's `run()` began: two controllers differing only in their old
callbacks produce identical settlement events after the same refresh. -/
theorem settlement_uses_latest_callbacks (c c' : Ctrl T L) (cs : CallbackSet L)
    (id : Nat) (s : Settlement T)
    (hinv : c.invocation = c'.invocation) (hlr : c.leaveRunning = c'.leaveRunning) :
    (settleStep (updateCallbacks c cs) id s).2
      = (settleStep (updateCallbacks c' cs) id s).2
    ∧ (updateCallbacks c cs).callbacks = cs := by
  constructor
  · cases s <;> simp only [settleStep, updateCallbacks, hinv, hlr] <;>
      by_cases h : id < c'.invocation <;> simp [h]
  · rfl

/-- Witness for `settlement_uses_latest_callbacks`: a run started under
`cs0` whose callbacks are refreshed to `cs1` before settlement fires the
same events as a run started under `cs1`. -/
theorem settlement_uses_latest_callbacks_witness :
    (settleStep (updateCallbacks (runStep c0 FuncResult.pending).ctrl cs1) 1
        (Settlement.success 9)).2
      = (settleStep
          (updateCallbacks (runStep (initCtrl none none cs1 : Ctrl Nat Nat)
            FuncResult.pending).ctrl cs1) 1
          (Settlement.success 9)).2 := by
  have h := settlement_uses_latest_callbacks
      (runStep c0 FuncResult.pending).ctrl
      (runStep (initCtrl none none cs1 : Ctrl Nat Nat) FuncResult.pending).ctrl
      cs1 1 (Settlement.success 9) rfl rfl
  exact h.1

/-- No atomic operation ever decreases the generation counter. -/
theorem step_invocation_le (c : Ctrl T L) (op : Op T L) :
    c.invocation ≤ (step c op).invocation := by
  cases op with
  | runOp fr => exact Nat.le_succ _
  | cancelOp => exact Nat.le_succ _
  | settleOp id s =>
    cases s <;> simp only [step, settleStep] <;> split <;> simp
  | updateOp cs => exact le_refl _

/-- The generation counter is monotone along any operation sequence. -/
theorem exec_invocation_le (c : Ctrl T L) (ops : List (Op T L)) :
    c.invocation ≤ (exec c ops).invocation := by
  induction ops generalizing c with
  | nil => exact le_refl _
  | cons op ops ih => exact le_trans (step_invocation_le c op) (ih (step c op))

/-- Every token handed out along an operation sequence exceeds the
counter value at the start of the sequence. -/
theorem runTokens_gt (c : Ctrl T L) (ops : List (Op T L)) :
    ∀ x ∈ runTokens c ops, c.invocation < x := by
  induction ops generalizing c with
  | nil =>
    intro x hx
    simp [runTokens] at hx
  | cons op ops ih =>
    intro x hx
    cases op with
    | runOp fr =>
      simp [runTokens] at hx
      rcases hx with h | h
      · omega
      · have h2 := ih (step c (Op.runOp fr)) x h
        have h3 : (step c (Op.runOp fr)).invocation = c.invocation + 1 := rfl
        omega
    | cancelOp =>
      simp [runTokens] at hx
      have h2 := ih (step c Op.cancelOp) x hx
      have h3 := step_invocation_le c Op.cancelOp
      omega
    | settleOp id s =>
      simp [runTokens] at hx
      have h2 := ih (step c (Op.settleOp id s)) x hx
      have h3 := step_invocation_le c (Op.settleOp id s)
      omega
    | updateOp cs =>
      simp [runTokens] at hx
      have h2 := ih (step c (Op.updateOp cs)) x hx
      have h3 := step_invocation_le c (Op.updateOp cs)
      omega

/-- The tokens handed out along an operation sequence are strictly
increasing (in particular pairwise distinct: no generation value is ever
reused). -/
theorem runTokens_pairwise (c : Ctrl T L) (ops : List (Op T L)) :
    List.Pairwise (· < ·) (runTokens c ops) := by
  induction ops generalizing c with
  | nil => simp [runTokens]
  | cons op ops ih =>
    cases op with
    | runOp fr =>
      have heq : runTokens c (Op.runOp fr :: ops)
          = (c.invocation + 1) :: runTokens (step c (Op.runOp fr)) ops := rfl
      rw [heq]
      refine List.Pairwise.cons ?_ (ih (step c (Op.runOp fr)))
      intro b hb
      have h2 := runTokens_gt (step c (Op.runOp fr)) ops b hb
      have h3 : (step c (Op.runOp fr)).invocation = c.invocation + 1 := rfl
      omega
    | cancelOp =>
      have heq : runTokens c (Op.cancelOp :: ops)
          = runTokens (step c Op.cancelOp) ops := rfl
      rw [heq]
      exact ih (step c Op.cancelOp)
    | settleOp id s =>
      have heq : runTokens c (Op.settleOp id s :: ops)
          = runTokens (step c (Op.settleOp id s)) ops := rfl
      rw [heq]
      exact ih (step c (Op.settleOp id s))
    | updateOp cs =>
      have heq : runTokens c (Op.updateOp cs :: ops)
          = runTokens (step c (Op.updateOp cs)) ops := rfl
      rw [heq]
      exact ih (step c (Op.updateOp cs))

/-- Claim C9: the generation counter never decreases along any sequence
of operations and is bumped by exactly one on every `run()` and every
`cancel()`; the tokens handed out are strictly increasing, so no
generation value is ever reused; and supersession is monotone: once a
token's `isSuperseded` check (`counter > id`) holds, it holds forever
after. -/
theorem counter_strictly_increasing (c : Ctrl T L) (ops : List (Op T L))
    (fr : FuncResult) :
    c.invocation ≤ (exec c ops).invocation
    ∧ (step c (Op.runOp fr)).invocation = c.invocation + 1
    ∧ (step c Op.cancelOp).invocation = c.invocation + 1
    ∧ List.Pairwise (· < ·) (runTokens c ops)
    ∧ (∀ id, isCanceled c id = true → isCanceled (exec c ops) id = true) := by
  refine ⟨exec_invocation_le c ops, rfl, rfl, runTokens_pairwise c ops, ?_⟩
  intro id h
  have h1 : id < c.invocation := by simpa [isCanceled] using h
  have h2 := exec_invocation_le c ops
  simp only [isCanceled, gt_iff_lt, decide_eq_true_eq]
  omega

/-- Witness for `counter_strictly_increasing`: token `0`, already
superseded after one `run`, stays superseded after a further `run` and a
`cancel`. -/
theorem counter_strictly_increasing_witness :
    isCanceled (exec (runStep c0 FuncResult.pending).ctrl
      ([Op.runOp FuncResult.pending, Op.cancelOp] : List (Op Nat Nat))) 0 = true := by
  have h := counter_strictly_increasing (runStep c0 FuncResult.pending).ctrl
      ([Op.runOp FuncResult.pending, Op.cancelOp] : List (Op Nat Nat)) FuncResult.pending
  exact h.2.2.2.2 0 (by decide)
